import Mathlib

/-!
Formal model of a computer-use agent (`cua.py`): the response interpreter
(`State`), the coordinate-scaling wrapper (`Scaler`) and the agent loop
(`Agent.continue_task`), with verified properties of each.

Conventions: Python machine arithmetic is modelled over `ℤ` and `ℚ`
(`int()` truncation toward zero, `/` raising `ZeroDivisionError` on a zero
divisor); fallible code returns `Except`; the remote completion service and
the input backend are external collaborators, modelled as oracles.
-/

namespace CUA

/-- Python `int()` applied to a rational: truncation toward zero. -/
def pytrunc (q : ℚ) : ℤ :=
  if 0 ≤ q then ⌊q⌋ else ⌈q⌉

/-- Errors raised by the modelled Python arithmetic. -/
inductive PyErr
  | zeroDivision
deriving Repr, DecidableEq

/-- Python true division `a / b`, raising `ZeroDivisionError` when `b = 0`. -/
def pydiv (a b : ℚ) : Except PyErr ℚ :=
  if b = 0 then .error .zeroDivision else .ok (a / b)

/-- A coordinate point, as in the normalized drag-path records. -/
structure Point where
  x : ℤ
  y : ℤ
deriving Repr, DecidableEq

/-- Canvas-size derivation in `Scaler.__init__` when no explicit dimensions
are given: keep the real size if its longer edge is at most 2048, otherwise
scale it by `2048 / longest` and truncate each component. -/
def deriveDimensions (width height : ℤ) : ℤ × ℤ :=
  let max_size : ℤ := 2048
  let longest := max width height
  if longest ≤ max_size then (width, height)
  else
    let scale : ℚ := (max_size : ℚ) / (longest : ℚ)
    (pytrunc ((width : ℚ) * scale), pytrunc ((height : ℚ) * scale))

/-- The mutable state of a `Scaler`: the fixed logical canvas `dimensions`
and the real screen size recorded by the most recent screenshot. -/
structure ScalerState where
  dimensions : ℤ × ℤ
  screen_width : ℤ
  screen_height : ℤ
deriving Repr, DecidableEq

/-- `Scaler.__init__`: take the explicit dimensions when given, otherwise
derive them from one screenshot of size `imageSize`; the recorded screen
size starts out as `-1 × -1`. -/
def Scaler.init (dims : Option (ℤ × ℤ)) (imageSize : ℤ × ℤ) : ScalerState :=
  { dimensions :=
      match dims with
      | some d => d
      | none => deriveDimensions imageSize.1 imageSize.2
    screen_width := -1
    screen_height := -1 }

/-- `Scaler._point_to_screen_coords`: translate a logical point to screen
coordinates by dividing by `min(width/screen_width, height/screen_height)`
and truncating. -/
def pointToScreen (s : ScalerState) (x y : ℤ) : Except PyErr (ℤ × ℤ) := do
  let wq ← pydiv (s.dimensions.1 : ℚ) (s.screen_width : ℚ)
  let hq ← pydiv (s.dimensions.2 : ℚ) (s.screen_height : ℚ)
  let r := min wq hq
  let xq ← pydiv (x : ℚ) r
  let yq ← pydiv (y : ℚ) r
  .ok (pytrunc xq, pytrunc yq)

/-- The capture-side scaling of one screen point into the logical canvas,
as `Scaler.screenshot` applies it to the image dimensions
(`new_width = int(screen_width * ratio)` and likewise for the height):
multiply by `min(width/screen_width, height/screen_height)` and truncate. -/
def screenToPoint (s : ScalerState) (x y : ℤ) : Except PyErr (ℤ × ℤ) := do
  let wq ← pydiv (s.dimensions.1 : ℚ) (s.screen_width : ℚ)
  let hq ← pydiv (s.dimensions.2 : ℚ) (s.screen_height : ℚ)
  let r := min wq hq
  .ok (pytrunc ((x : ℚ) * r), pytrunc ((y : ℚ) * r))

/-- Result of the geometric part of `Scaler.screenshot`: the updated state
and the size of the resized image pasted onto the canvas. -/
structure ScreenshotOut where
  state : ScalerState
  new_size : ℤ × ℤ
deriving Repr, DecidableEq

/-- The geometric part of `Scaler.screenshot`: record the captured image
size as the current screen size, then compute the resized image size from
the ratio `min(width/screen_width, height/screen_height)`. -/
def Scaler.screenshotGeom (s : ScalerState) (imageSize : ℤ × ℤ) :
    Except PyErr ScreenshotOut := do
  let s := { s with screen_width := imageSize.1, screen_height := imageSize.2 }
  let wq ← pydiv (s.dimensions.1 : ℚ) (s.screen_width : ℚ)
  let hq ← pydiv (s.dimensions.2 : ℚ) (s.screen_height : ℚ)
  let r := min wq hq
  let new_width := pytrunc ((s.screen_width : ℚ) * r)
  let new_height := pytrunc ((s.screen_height : ℚ) * r)
  .ok { state := s, new_size := (new_width, new_height) }

/-- The scale ratio `min(width/screen_width, height/screen_height)` both
translation directions recompute from the current state. -/
def scaleRatio (s : ScalerState) : ℚ :=
  min ((s.dimensions.1 : ℚ) / (s.screen_width : ℚ))
    ((s.dimensions.2 : ℚ) / (s.screen_height : ℚ))

/-- A call delegated to the underlying computer backend. -/
inductive BCall
  | click (x y : ℤ) (button : String)
  | double_click (x y : ℤ)
  | scroll (x y scroll_x scroll_y : ℤ)
  | typeText (text : String)
  | wait (ms : ℤ)
  | move (x y : ℤ)
  | keypress (keys : List String)
  | drag (path : List Point)
deriving Repr, DecidableEq

/-- `Scaler.click`: translate the point, then delegate. -/
def Scaler.click (s : ScalerState) (x y : ℤ) (button : String) :
    Except PyErr BCall := do
  let p ← pointToScreen s x y
  .ok (.click p.1 p.2 button)

/-- `Scaler.double_click`: translate the point, then delegate. -/
def Scaler.double_click (s : ScalerState) (x y : ℤ) : Except PyErr BCall := do
  let p ← pointToScreen s x y
  .ok (.double_click p.1 p.2)

/-- `Scaler.scroll`: translate the position, pass the deltas through. -/
def Scaler.scroll (s : ScalerState) (x y scroll_x scroll_y : ℤ) :
    Except PyErr BCall := do
  let p ← pointToScreen s x y
  .ok (.scroll p.1 p.2 scroll_x scroll_y)

/-- `Scaler.type`: pass the text through unchanged. -/
def Scaler.type (_s : ScalerState) (text : String) : Except PyErr BCall :=
  .ok (.typeText text)

/-- `Scaler.wait`: pass the duration through unchanged. -/
def Scaler.wait (_s : ScalerState) (ms : ℤ) : Except PyErr BCall :=
  .ok (.wait ms)

/-- `Scaler.move`: translate the point, then delegate. -/
def Scaler.move (s : ScalerState) (x y : ℤ) : Except PyErr BCall := do
  let p ← pointToScreen s x y
  .ok (.move p.1 p.2)

/-- `Scaler.keypress`: pass the key list through unchanged. -/
def Scaler.keypress (_s : ScalerState) (keys : List String) :
    Except PyErr BCall :=
  .ok (.keypress keys)

/-- The in-place translation loop of `Scaler.drag`, in path order. -/
def translatePath (s : ScalerState) : List Point → Except PyErr (List Point)
  | [] => .ok []
  | p :: rest => do
    let q ← pointToScreen s p.x p.y
    let rest2 ← translatePath s rest
    .ok (Point.mk q.1 q.2 :: rest2)

/-- `Scaler.drag`: translate every point of the path in place, preserving
order, then delegate. -/
def Scaler.drag (s : ScalerState) (path : List Point) : Except PyErr BCall := do
  let path2 ← translatePath s path
  .ok (.drag path2)

/-- An argument value in an action- or tool-argument mapping. -/
inductive AVal
  | int (n : ℤ)
  | str (s : String)
  | pts (l : List Point)
deriving Repr, DecidableEq

/-- Python `d[k] = v` on an association list: replace the first binding of
`k`, or append one. -/
def setKey (m : List (String × AVal)) (k : String) (v : AVal) :
    List (String × AVal) :=
  match m with
  | [] => [(k, v)]
  | (k0, v0) :: rest =>
    if k0 = k then (k0, v) :: rest else (k0, v0) :: setKey rest k v

/-- Payload of a `computer_call` output item: call id, the action's `type`
attribute, its remaining attributes (`vars(action)` without `type`), the
raw drag path, and the item's pending safety checks. -/
structure CompCall where
  call_id : String
  ctype : String
  cargs : List (String × AVal)
  cpath : List Point
  pending_safety_checks : List String
deriving Repr, DecidableEq

/-- One output item of a response, by kind; `unknown` carries the kind
string of any item the interpreter does not support. -/
inductive OutputItem
  | computerCall (c : CompCall)
  | reasoning (summary : List String)
  | message (content : List String)
  | functionCall (call_id : String) (name : String)
      (args : List (String × AVal))
  | unknown (kind : String)
deriving Repr, DecidableEq

/-- A response from the remote completion service. -/
structure Response where
  status : String
  id : String
  output : List OutputItem
deriving Repr, DecidableEq

/-- The `State` object built from one response. `tool_name` and `tool_args`
are only meaningful after a `function_call` item (in Python they are set as
attributes only on that branch); the defaults mirror the class-level
defaults. -/
structure St where
  previous_response_id : String
  next_action : String := ""
  call_id : String := ""
  computer_action : String := ""
  computer_action_args : List (String × AVal) := []
  pending_safety_checks : List String := []
  reasoning_summary : String := ""
  message : String := ""
  tool_name : String := ""
  tool_args : List (String × AVal) := []
deriving Repr, DecidableEq

/-- Errors raised by `State.__init__`: the failed status assertion, the
`NotImplementedError` for an unsupported output kind (carrying the kind
string), and the `IndexError` from `content[-1]` on an empty content
list. -/
inductive InterpErr
  | statusNotCompleted
  | unsupportedOutput (kind : String)
  | indexError
deriving Repr, DecidableEq

/-- The fresh state at the top of `State.__init__`, before the output items
are folded in. -/
def initSt (rid : String) : St :=
  { previous_response_id := rid }

/-- One iteration of the item loop in `State.__init__`. -/
def stepItem (st : St) (item : OutputItem) : Except InterpErr St :=
  match item with
  | .computerCall c =>
    let args :=
      if c.ctype = "drag" then setKey c.cargs "path" (AVal.pts c.cpath)
      else c.cargs
    .ok { st with
          next_action := "computer_call_output"
          call_id := c.call_id
          computer_action := c.ctype
          computer_action_args := args
          pending_safety_checks := c.pending_safety_checks }
  | .reasoning summary =>
    .ok { st with reasoning_summary := String.join summary }
  | .message content =>
    match content.getLast? with
    | none => .error .indexError
    | some t =>
      .ok { st with
            next_action := "user_interaction"
            message := st.message ++ t }
  | .functionCall cid name args =>
    .ok { st with
          next_action := "function_call"
          call_id := cid
          tool_name := name
          tool_args := args }
  | .unknown kind => .error (.unsupportedOutput kind)

/-- `State.__init__` as a whole: assert the status, record the response id,
fold the output items in order. -/
def interpResponse (r : Response) : Except InterpErr St :=
  if r.status = "completed" then r.output.foldlM stepItem (initSt r.id)
  else .error .statusNotCompleted

/-- Split a character list into its maximal leading digit run and the
rest. -/
def takeDigits : List Char → List Char × List Char
  | [] => ([], [])
  | c :: rest =>
    if c.isDigit then
      let p := takeDigits rest
      (c :: p.1, p.2)
    else ([], c :: rest)

/-- Numeric value of a digit run, as Python `int` reads it. -/
def natOfDigits (ds : List Char) : ℕ :=
  ds.foldl (fun acc c => acc * 10 + (c.toNat - Char.toNat (Char.ofNat 48))) 0

/-- Try to match the pattern of `re.search` at one position: the fixed
phrase, then a maximal nonempty digit run, then the letter `s`. -/
def tryPhrase (cs : List Char) : Option ℕ :=
  let phrase := "Please try again in ".toList
  if phrase.isPrefixOf cs then
    let rest := cs.drop phrase.length
    let p := takeDigits rest
    if p.1 ≠ [] ∧ p.2.head? = some 's' then some (natOfDigits p.1) else none
  else none

/-- Leftmost match of the rate-limit pattern, scanning positions left to
right. -/
def searchWait : List Char → Option ℕ
  | [] => none
  | c :: rest =>
    match tryPhrase (c :: rest) with
    | some n => some n
    | none => searchWait rest

/-- Wait-time extraction in `continue_task`: the seconds value matched by
the pattern in the rate-limit error's message, defaulting to 10 when the
pattern is absent. -/
def parseWait (msg : String) : ℕ :=
  (searchWait msg.toList).getD 10

/-- Outcome of one `responses.create` call inside the retry loop. -/
inductive AttemptOutcome
  | rateLimit (msg : String)
  | response (r : Response)

/-- Observable events of one `continue_task` call, in order. -/
inductive Ev
  | execComputerAction (action : String)
  | takeScreenshot
  | runTool (name : String)
  | clearState
  | sleep (seconds : ℕ)
  | request (idx : ℕ)
  | logCritical
deriving Repr, DecidableEq

/-- Result of the retry loop: the state set on success (absent on
exhaustion or on a raised interpretation error), the error raised past the
loop if any, the durations of all `time.sleep` calls, the number of
`responses.create` calls made, and the event list. -/
structure LoopOut where
  state : Option St
  raised : Option InterpErr
  sleeps : List ℕ
  requests : ℕ
  events : List Ev
deriving Repr, DecidableEq

/-- The body of the bounded retry loop of `continue_task`: sleep the
current wait time, issue the request, and either finish with a new state,
re-raise a non-rate-limit failure, or parse the next wait time and retry;
after the last attempt, log the critical condition and leave the state
unset. -/
def retryAux (remote : ℕ → AttemptOutcome) :
    ℕ → ℕ → ℕ → List ℕ → ℕ → List Ev → LoopOut
  | 0, _, _, sleeps, reqs, evs =>
    { state := none, raised := none, sleeps := sleeps, requests := reqs,
      events := evs ++ [.logCritical] }
  | fuel + 1, i, wait, sleeps, reqs, evs =>
    let sleeps2 := sleeps ++ [wait]
    let evs2 := evs ++ [.sleep wait, .request i]
    match remote i with
    | .rateLimit msg =>
      retryAux remote fuel (i + 1) (parseWait msg) sleeps2 (reqs + 1) evs2
    | .response r =>
      match interpResponse r with
      | .ok st =>
        { state := some st, raised := none, sleeps := sleeps2,
          requests := reqs + 1, events := evs2 }
      | .error e =>
        { state := none, raised := some e, sleeps := sleeps2,
          requests := reqs + 1, events := evs2 }

/-- The `for _ in range(10)` retry loop of `continue_task`, starting with a
zero wait time. -/
def retryLoop (remote : ℕ → AttemptOutcome) : LoopOut :=
  retryAux remote 10 0 0 [] 0 []

/-- The agent's own mutable fields: the current state, if any, and the tool
registry (name to descriptor; executors live in the environment). -/
structure AgentM where
  state : Option St
  tools : List (String × String)
deriving Repr, DecidableEq

/-- The single input item built by `continue_task` for the next request. -/
inductive NextInput
  | computerCallOutput (call_id : String) (screenshot : String)
      (acks : List String)
  | functionCallOutput (call_id : String) (output : String)
  | userMessage (content : String)
deriving Repr, DecidableEq

/-- Errors `continue_task` can raise: `AttributeError` when no state is
set, `ValueError` for an unregistered tool, or a re-raised interpretation
failure. -/
inductive AgentErr
  | noState
  | unknownTool (name : String)
  | interpFailure (e : InterpErr)
deriving Repr, DecidableEq

/-- Result of one `continue_task` call: the agent afterwards, the error
raised if any, and the event list. -/
structure ContinueOut where
  agent : AgentM
  raised : Option AgentErr
  events : List Ev
deriving Repr, DecidableEq

/-- External collaborators of `continue_task`: the remote service (indexed
by create-call number, given the built input item), the registered tool
executors with result serialization, and the backend screenshot data. -/
structure Env where
  remote : NextInput → ℕ → AttemptOutcome
  execTool : String → List (String × AVal) → String
  screenshotData : String

/-- The dispatch phase of `continue_task` (before the state is cleared):
build the next input item and perform the matching side effects, raising
`ValueError` for an unregistered tool name. -/
def phase1 (env : Env) (a : AgentM) (st : St) (user_message : String) :
    Except AgentErr (NextInput × List Ev) :=
  if st.next_action = "computer_call_output" then
    .ok (.computerCallOutput st.call_id env.screenshotData
          st.pending_safety_checks,
         [.execComputerAction st.computer_action, .takeScreenshot])
  else if st.next_action = "function_call" then
    match a.tools.lookup st.tool_name with
    | none => .error (.unknownTool st.tool_name)
    | some _ =>
      .ok (.functionCallOutput st.call_id
            (env.execTool st.tool_name st.tool_args),
           [.runTool st.tool_name])
  else .ok (.userMessage user_message, [])

/-- `Agent.continue_task`: read the current state (raising when absent),
dispatch it, clear the state, then run the bounded retry loop; the final
state is whatever the loop set. -/
def continueTask (env : Env) (a : AgentM) (user_message : String) :
    ContinueOut :=
  match a.state with
  | none => { agent := a, raised := some .noState, events := [] }
  | some st =>
    match phase1 env a st user_message with
    | .error e => { agent := a, raised := some e, events := [] }
    | .ok (input, evs) =>
      let lo := retryLoop (env.remote input)
      { agent := { a with state := lo.state },
        raised := lo.raised.map AgentErr.interpFailure,
        events := evs ++ [Ev.clearState] ++ lo.events }

instance {ε α : Type} [DecidableEq ε] [DecidableEq α] :
    DecidableEq (Except ε α) := fun a b =>
  match a, b with
  | .error e, .error f =>
    if h : e = f then .isTrue (by rw [h]) else .isFalse (by simp [h])
  | .error _, .ok _ => .isFalse (by simp)
  | .ok _, .error _ => .isFalse (by simp)
  | .ok x, .ok y =>
    if h : x = y then .isTrue (by rw [h]) else .isFalse (by simp [h])

/-- Kind test: is this output item a `message` item? -/
def isMessageItem : OutputItem → Bool
  | .message _ => true
  | _ => false

/-- Is this item one of the two text-bearing kinds, with a message item
additionally carrying at least one content fragment? -/
def isTextItem : OutputItem → Bool
  | .reasoning _ => true
  | .message content => !content.isEmpty
  | _ => false

/-- The text a message item contributes: its last content fragment. -/
def lastFragment : OutputItem → String
  | .message content => content.getLastD ""
  | _ => ""

/-- The reasoning text as the spec describes it: each reasoning item
overwrites, so the last reasoning item wins (empty when there is none). -/
def lastReasoningJoin (items : List OutputItem) : String :=
  items.foldl
    (fun acc it =>
      match it with
      | .reasoning summary => String.join summary
      | _ => acc) ""

/-- The assistant message as the spec describes it: the last content
fragment of each message item, accumulated in order. -/
def messagesConcat (items : List OutputItem) : String :=
  items.foldl (fun acc it => acc ++ lastFragment it) ""

/-- Is this event a request to the remote completion service? -/
def isRequestEv : Ev → Bool
  | .request _ => true
  | _ => false

/-- Does the event list avoid any remote request until after the current
state has been cleared? -/
def noRequestBeforeClear (evs : List Ev) : Bool :=
  (evs.takeWhile fun e => !(e == Ev.clearState)).all fun e => !(isRequestEv e)

/-! Helper lemmas shared by the claim theorems. -/

theorem pytrunc_of_nonneg {q : ℚ} (h : 0 ≤ q) : pytrunc q = ⌊q⌋ := by
  simp [pytrunc, h]

theorem pytrunc_nonneg {q : ℚ} (h : 0 ≤ q) : 0 ≤ pytrunc q := by
  rw [pytrunc_of_nonneg h]
  exact Int.floor_nonneg.mpr h

theorem pointToScreen_eq (s : ScalerState) (x y : ℤ)
    (hsw : (s.screen_width : ℚ) ≠ 0) (hsh : (s.screen_height : ℚ) ≠ 0)
    (hr : scaleRatio s ≠ 0) :
    pointToScreen s x y =
      .ok (pytrunc ((x : ℚ) / scaleRatio s),
           pytrunc ((y : ℚ) / scaleRatio s)) := by
  rw [scaleRatio] at hr
  rw [pointToScreen]
  simp [pydiv, hsw, hsh, hr, Bind.bind, Except.bind, scaleRatio]

theorem screenToPoint_eq (s : ScalerState) (x y : ℤ)
    (hsw : (s.screen_width : ℚ) ≠ 0) (hsh : (s.screen_height : ℚ) ≠ 0) :
    screenToPoint s x y =
      .ok (pytrunc ((x : ℚ) * scaleRatio s),
           pytrunc ((y : ℚ) * scaleRatio s)) := by
  rw [screenToPoint]
  simp [pydiv, hsw, hsh, Bind.bind, Except.bind, scaleRatio]

/-- C3: when the mapper is constructed without an explicit canvas size, the
canvas is derived from one screenshot's real resolution by scaling down
(never up) so the longer edge is at most 2048; a real size (3840, 2160)
yields exactly (2048, 1152); and the only state-updating operation
(screenshot) never modifies the canvas dimensions. -/
theorem c3_canvas_derivation :
    deriveDimensions 3840 2160 = (2048, 1152) ∧
    (Scaler.init none (3840, 2160)).dimensions = (2048, 1152) ∧
    (∀ w h : ℤ, 0 < w → 0 < h →
      (deriveDimensions w h).1 ≤ w ∧ (deriveDimensions w h).2 ≤ h ∧
      max (deriveDimensions w h).1 (deriveDimensions w h).2 ≤ 2048) ∧
    (∀ (s : ScalerState) (imageSize : ℤ × ℤ) (out : ScreenshotOut),
      Scaler.screenshotGeom s imageSize = .ok out →
      out.state.dimensions = s.dimensions) := by
  have hmain : deriveDimensions 3840 2160 = (2048, 1152) := by
    simp [deriveDimensions, pytrunc]
    norm_num
  refine ⟨hmain, by simpa [Scaler.init] using hmain, ?_, ?_⟩
  · intro w h hw hh
    by_cases hc : max w h ≤ 2048
    · simp only [deriveDimensions, if_pos hc]
      exact ⟨le_refl w, le_refl h, hc⟩
    · have hL : (2048 : ℤ) < max w h := lt_of_not_ge hc
      have hLq : (0 : ℚ) < ((max w h : ℤ) : ℚ) := by
        have : (0 : ℤ) < max w h := lt_trans (by norm_num) hL
        exact_mod_cast this
      have hLne : ((max w h : ℤ) : ℚ) ≠ 0 := ne_of_gt hLq
      have hscale : (0 : ℚ) < (2048 : ℚ) / ((max w h : ℤ) : ℚ) := by positivity
      have hlt1 : (2048 : ℚ) / ((max w h : ℤ) : ℚ) < 1 := by
        rw [div_lt_one hLq]
        exact_mod_cast hL
      have key : ∀ z : ℤ, 0 < z → z ≤ max w h →
          pytrunc ((z : ℚ) * ((2048 : ℚ) / ((max w h : ℤ) : ℚ))) ≤ z ∧
          pytrunc ((z : ℚ) * ((2048 : ℚ) / ((max w h : ℤ) : ℚ))) ≤ 2048 := by
        intro z hz hzL
        have hzq : (0 : ℚ) < (z : ℚ) := by exact_mod_cast hz
        have hnn : (0 : ℚ) ≤ (z : ℚ) * ((2048 : ℚ) / ((max w h : ℤ) : ℚ)) :=
          le_of_lt (mul_pos hzq hscale)
        rw [pytrunc_of_nonneg hnn]
        constructor
        · have hlt : (z : ℚ) * ((2048 : ℚ) / ((max w h : ℤ) : ℚ)) < (z : ℚ) := by
            calc (z : ℚ) * ((2048 : ℚ) / ((max w h : ℤ) : ℚ))
                < (z : ℚ) * 1 := by
                  exact mul_lt_mul_of_pos_left hlt1 hzq
              _ = (z : ℚ) := mul_one _
          exact le_of_lt (Int.floor_lt.mpr hlt)
        · have hzLq : (z : ℚ) ≤ ((max w h : ℤ) : ℚ) := by exact_mod_cast hzL
          have hle : (z : ℚ) * ((2048 : ℚ) / ((max w h : ℤ) : ℚ)) ≤ 2048 := by
            calc (z : ℚ) * ((2048 : ℚ) / ((max w h : ℤ) : ℚ))
                ≤ ((max w h : ℤ) : ℚ) * ((2048 : ℚ) / ((max w h : ℤ) : ℚ)) :=
                  mul_le_mul_of_nonneg_right hzLq (le_of_lt hscale)
              _ = 2048 := mul_div_cancel₀ _ hLne
          calc ⌊(z : ℚ) * ((2048 : ℚ) / ((max w h : ℤ) : ℚ))⌋
              ≤ ⌊(2048 : ℚ)⌋ := Int.floor_le_floor hle
            _ = 2048 := by norm_num
      have kw := key w hw (le_max_left w h)
      have kh := key h hh (le_max_right w h)
      simp only [deriveDimensions, if_neg hc]
      exact ⟨kw.1, kh.1, max_le kw.2 kh.2⟩
  · intro s imageSize out hout
    by_cases h1 : ((imageSize.1 : ℤ) : ℚ) = 0
    · simp [Scaler.screenshotGeom, pydiv, h1, Bind.bind, Except.bind] at hout
    · by_cases h2 : ((imageSize.2 : ℤ) : ℚ) = 0
      · simp [Scaler.screenshotGeom, pydiv, h1, h2, Bind.bind, Except.bind] at hout
      · simp [Scaler.screenshotGeom, pydiv, h1, h2, Bind.bind, Except.bind] at hout
        rw [← hout]

/-- Witness for C3: the general bounds applied to the real size
(4096, 2304), and dimension preservation applied to one concrete
screenshot update. -/
theorem c3_canvas_derivation_witness :
    ((deriveDimensions 4096 2304).1 ≤ 4096 ∧
      (deriveDimensions 4096 2304).2 ≤ 2304 ∧
      max (deriveDimensions 4096 2304).1 (deriveDimensions 4096 2304).2 ≤ 2048) ∧
    (({ state := { dimensions := (2048, 1152), screen_width := 3840,
                   screen_height := 2160 },
        new_size := (2048, 1152) } : ScreenshotOut)).state.dimensions =
      ({ dimensions := (2048, 1152), screen_width := -1,
         screen_height := -1 } : ScalerState).dimensions := by
  have h4 : Scaler.screenshotGeom
      { dimensions := (2048, 1152), screen_width := -1, screen_height := -1 }
      (3840, 2160) =
      .ok { state := { dimensions := (2048, 1152), screen_width := 3840,
                       screen_height := 2160 },
            new_size := (2048, 1152) } := by
    rw [Scaler.screenshotGeom]
    norm_num [pydiv, pytrunc, min_def, Bind.bind, Except.bind]
  exact ⟨c3_canvas_derivation.2.2.1 4096 2304 (by decide) (by decide),
         c3_canvas_derivation.2.2.2 _ _ _ h4⟩

theorem roundtrip_scalar (v : ℤ) (r : ℚ) (_hv : 0 ≤ v) (hr : 0 < r) :
    ⌊((⌊(v : ℚ) * r⌋ : ℚ) / r)⌋ ≤ v ∧
      (v : ℚ) < ⌊((⌊(v : ℚ) * r⌋ : ℚ) / r)⌋ + 1 + 1 / r := by
  constructor
  · have h1 : (⌊(v : ℚ) * r⌋ : ℚ) ≤ (v : ℚ) * r := Int.floor_le _
    have h2 : (⌊(v : ℚ) * r⌋ : ℚ) / r ≤ (v : ℚ) := by
      rw [div_le_iff₀ hr]
      exact h1
    calc ⌊((⌊(v : ℚ) * r⌋ : ℚ) / r)⌋ ≤ ⌊(v : ℚ)⌋ := Int.floor_le_floor h2
      _ = v := Int.floor_intCast v
  · have h3 : (v : ℚ) * r < ⌊(v : ℚ) * r⌋ + 1 := Int.lt_floor_add_one _
    have h4 : (v : ℚ) < ((⌊(v : ℚ) * r⌋ : ℚ) + 1) / r := by
      rw [lt_div_iff₀ hr]
      exact h3
    have h5 : (⌊(v : ℚ) * r⌋ : ℚ) / r < ⌊((⌊(v : ℚ) * r⌋ : ℚ) / r)⌋ + 1 :=
      Int.lt_floor_add_one _
    have hrne : r ≠ 0 := ne_of_gt hr
    calc (v : ℚ) < ((⌊(v : ℚ) * r⌋ : ℚ) + 1) / r := h4
      _ = (⌊(v : ℚ) * r⌋ : ℚ) / r + 1 / r := by ring
      _ < (⌊((⌊(v : ℚ) * r⌋ : ℚ) / r)⌋ + 1) + 1 / r := by linarith
      _ = ⌊((⌊(v : ℚ) * r⌋ : ℚ) / r)⌋ + 1 + 1 / r := by ring

/-- C2 counterexample: with canvas (2048, 1152) and real screen
(3840, 2160) — the derived canvas of the spec's own example — the
screen-to-logical-to-screen round trip carries the screen coordinate 5 to
the logical coordinate 2 and back to the screen coordinate 3, an error of
2 units, not at most 1. -/
theorem c2_roundtrip_cex :
    screenToPoint
        { dimensions := (2048, 1152), screen_width := 3840,
          screen_height := 2160 } 5 5 = .ok (2, 2) ∧
    pointToScreen
        { dimensions := (2048, 1152), screen_width := 3840,
          screen_height := 2160 } 2 2 = .ok (3, 3) ∧
    ¬ ((5 - 3 : ℤ).natAbs ≤ 1) := by
  refine ⟨?_, ?_, by decide⟩
  · rw [screenToPoint]
    norm_num [pydiv, pytrunc, min_def, Bind.bind, Except.bind]
  · rw [pointToScreen]
    norm_num [pydiv, pytrunc, min_def, Bind.bind, Except.bind]

/-- C2 (amended): the logical-to-screen translation is an inverse of the
capture-side scaling only up to the truncation error of both directions:
for positive canvas and screen sizes and nonnegative screen coordinates,
the round trip never overshoots and undershoots by strictly less than
`1 + 1/ratio` screen units (so up to 1 unit only when `ratio ≥ 1`; with
the usual down-scaling `ratio < 1` the error can reach `⌈1/ratio⌉`
units, e.g. 2 units at ratio 8/15). -/
theorem c2_roundtrip_error_bound (s : ScalerState) (x y : ℤ)
    (hw : 0 < s.dimensions.1) (hh : 0 < s.dimensions.2)
    (hsw : 0 < s.screen_width) (hsh : 0 < s.screen_height)
    (hx : 0 ≤ x) (hy : 0 ≤ y) :
    ∃ p q : ℤ × ℤ,
      screenToPoint s x y = .ok p ∧
      pointToScreen s p.1 p.2 = .ok q ∧
      q.1 ≤ x ∧ q.2 ≤ y ∧
      (x : ℚ) < q.1 + 1 + 1 / scaleRatio s ∧
      (y : ℚ) < q.2 + 1 + 1 / scaleRatio s := by
  have hwq : (0 : ℚ) < (s.dimensions.1 : ℚ) := by exact_mod_cast hw
  have hhq : (0 : ℚ) < (s.dimensions.2 : ℚ) := by exact_mod_cast hh
  have hswq : (0 : ℚ) < (s.screen_width : ℚ) := by exact_mod_cast hsw
  have hshq : (0 : ℚ) < (s.screen_height : ℚ) := by exact_mod_cast hsh
  have hr : 0 < scaleRatio s := by
    rw [scaleRatio]
    exact lt_min (div_pos hwq hswq) (div_pos hhq hshq)
  have hrne : scaleRatio s ≠ 0 := ne_of_gt hr
  have hxq : (0 : ℚ) ≤ (x : ℚ) := by exact_mod_cast hx
  have hyq : (0 : ℚ) ≤ (y : ℚ) := by exact_mod_cast hy
  have hxr : (0 : ℚ) ≤ (x : ℚ) * scaleRatio s := mul_nonneg hxq (le_of_lt hr)
  have hyr : (0 : ℚ) ≤ (y : ℚ) * scaleRatio s := mul_nonneg hyq (le_of_lt hr)
  have hfx : pytrunc ((x : ℚ) * scaleRatio s) = ⌊(x : ℚ) * scaleRatio s⌋ :=
    pytrunc_of_nonneg hxr
  have hfy : pytrunc ((y : ℚ) * scaleRatio s) = ⌊(y : ℚ) * scaleRatio s⌋ :=
    pytrunc_of_nonneg hyr
  have hx0 : (0 : ℚ) ≤ ((⌊(x : ℚ) * scaleRatio s⌋ : ℤ) : ℚ) := by
    exact_mod_cast Int.floor_nonneg.mpr hxr
  have hy0 : (0 : ℚ) ≤ ((⌊(y : ℚ) * scaleRatio s⌋ : ℤ) : ℚ) := by
    exact_mod_cast Int.floor_nonneg.mpr hyr
  have hfx2 : pytrunc ((⌊(x : ℚ) * scaleRatio s⌋ : ℚ) / scaleRatio s) =
      ⌊((⌊(x : ℚ) * scaleRatio s⌋ : ℚ) / scaleRatio s)⌋ :=
    pytrunc_of_nonneg (div_nonneg hx0 (le_of_lt hr))
  have hfy2 : pytrunc ((⌊(y : ℚ) * scaleRatio s⌋ : ℚ) / scaleRatio s) =
      ⌊((⌊(y : ℚ) * scaleRatio s⌋ : ℚ) / scaleRatio s)⌋ :=
    pytrunc_of_nonneg (div_nonneg hy0 (le_of_lt hr))
  refine ⟨(⌊(x : ℚ) * scaleRatio s⌋, ⌊(y : ℚ) * scaleRatio s⌋),
    (⌊((⌊(x : ℚ) * scaleRatio s⌋ : ℚ) / scaleRatio s)⌋,
     ⌊((⌊(y : ℚ) * scaleRatio s⌋ : ℚ) / scaleRatio s)⌋), ?_, ?_,
    (roundtrip_scalar x (scaleRatio s) hx hr).1,
    (roundtrip_scalar y (scaleRatio s) hy hr).1,
    (roundtrip_scalar x (scaleRatio s) hx hr).2,
    (roundtrip_scalar y (scaleRatio s) hy hr).2⟩
  · rw [screenToPoint_eq s x y (ne_of_gt hswq) (ne_of_gt hshq), hfx, hfy]
  · rw [pointToScreen_eq s _ _ (ne_of_gt hswq) (ne_of_gt hshq) hrne, hfx2, hfy2]

/-- Witness for C2 (amended): the bound applied at the counterexample
configuration and screen point (5, 5). -/
theorem c2_roundtrip_error_bound_witness :
    ∃ p q : ℤ × ℤ,
      screenToPoint
          { dimensions := (2048, 1152), screen_width := 3840,
            screen_height := 2160 } 5 5 = .ok p ∧
      pointToScreen
          { dimensions := (2048, 1152), screen_width := 3840,
            screen_height := 2160 } p.1 p.2 = .ok q ∧
      q.1 ≤ 5 ∧ q.2 ≤ 5 ∧
      ((5 : ℤ) : ℚ) < q.1 + 1 + 1 / scaleRatio
          { dimensions := (2048, 1152), screen_width := 3840,
            screen_height := 2160 } ∧
      ((5 : ℤ) : ℚ) < q.2 + 1 + 1 / scaleRatio
          { dimensions := (2048, 1152), screen_width := 3840,
            screen_height := 2160 } :=
  c2_roundtrip_error_bound
    { dimensions := (2048, 1152), screen_width := 3840, screen_height := 2160 }
    5 5 (by decide) (by decide) (by decide) (by decide) (by decide) (by decide)

end CUA

namespace CUA

/-- C9 counterexample: a position-translating call before the first
screenshot does not fail: the screen size is initialized to -1 (not 0), so
the ratio is negative and the logical point (100, 50) on the canvas
(2048, 1152) is silently translated to the screen point (0, 0), with no
error raised. -/
theorem c9_translate_before_screenshot_cex :
    pointToScreen (Scaler.init (some (2048, 1152)) (0, 0)) 100 50 =
      .ok (0, 0) := by
  rw [Scaler.init, pointToScreen]
  norm_num [pydiv, pytrunc, min_def, Bind.bind, Except.bind]

/-- C9 (amended): for any positive canvas size, translation before the
first screenshot never fails fast: the uninitialized screen size is -1, no
division by zero occurs, and a translated point is silently returned. -/
theorem c9_no_fail_fast (cw ch x y : ℤ) (hw : 0 < cw) (_hh : 0 < ch) :
    ∃ p : ℤ × ℤ,
      pointToScreen (Scaler.init (some (cw, ch)) (0, 0)) x y = .ok p := by
  have hswq : ((Scaler.init (some (cw, ch)) (0, 0)).screen_width : ℚ) ≠ 0 := by
    simp [Scaler.init]
  have hshq : ((Scaler.init (some (cw, ch)) (0, 0)).screen_height : ℚ) ≠ 0 := by
    simp [Scaler.init]
  have hcwq : (0 : ℚ) < (cw : ℚ) := by exact_mod_cast hw
  have hr : scaleRatio (Scaler.init (some (cw, ch)) (0, 0)) < 0 := by
    rw [scaleRatio]
    refine lt_of_le_of_lt (min_le_left _ _) ?_
    simp only [Scaler.init]
    exact div_neg_of_pos_of_neg hcwq (by norm_num)
  exact ⟨_, pointToScreen_eq _ x y hswq hshq (ne_of_lt hr)⟩

/-- Witness for C9 (amended): instantiated at the canvas (2048, 1152) and
the point (100, 50). -/
theorem c9_no_fail_fast_witness :
    ∃ p : ℤ × ℤ,
      pointToScreen (Scaler.init (some (2048, 1152)) (0, 0)) 100 50 =
        .ok p :=
  c9_no_fail_fast 2048 1152 100 50 (by decide) (by decide)

end CUA

namespace CUA

theorem translatePath_eq (s : ScalerState)
    (hsw : (s.screen_width : ℚ) ≠ 0) (hsh : (s.screen_height : ℚ) ≠ 0)
    (hr : scaleRatio s ≠ 0) :
    ∀ path : List Point,
      translatePath s path = .ok (path.map fun p =>
        Point.mk (pytrunc ((p.x : ℚ) / scaleRatio s))
          (pytrunc ((p.y : ℚ) / scaleRatio s)))
  | [] => by simp [translatePath]
  | p :: rest => by
    rw [translatePath, pointToScreen_eq s p.x p.y hsw hsh hr,
      translatePath_eq s hsw hsh hr rest]
    simp [Bind.bind, Except.bind]

/-- C4: every position-bearing method (click, double_click, scroll, move,
drag) translates its coordinates to `(x/ratio, y/ratio)` truncated, with
the ratio recomputed as `min(width/screen_width, height/screen_height)`
from the most recently recorded screen size, before delegating; drag
translates every point of its path in place in order; type, wait and
keypress pass their arguments through unchanged. -/
theorem c4_method_translation (s : ScalerState)
    (x y scroll_x scroll_y ms : ℤ) (button text : String)
    (keys : List String) (path : List Point)
    (hsw : (s.screen_width : ℚ) ≠ 0) (hsh : (s.screen_height : ℚ) ≠ 0)
    (hr : scaleRatio s ≠ 0) :
    Scaler.click s x y button =
      .ok (.click (pytrunc ((x : ℚ) / scaleRatio s))
            (pytrunc ((y : ℚ) / scaleRatio s)) button) ∧
    Scaler.double_click s x y =
      .ok (.double_click (pytrunc ((x : ℚ) / scaleRatio s))
            (pytrunc ((y : ℚ) / scaleRatio s))) ∧
    Scaler.scroll s x y scroll_x scroll_y =
      .ok (.scroll (pytrunc ((x : ℚ) / scaleRatio s))
            (pytrunc ((y : ℚ) / scaleRatio s)) scroll_x scroll_y) ∧
    Scaler.move s x y =
      .ok (.move (pytrunc ((x : ℚ) / scaleRatio s))
            (pytrunc ((y : ℚ) / scaleRatio s))) ∧
    Scaler.drag s path =
      .ok (.drag (path.map fun p =>
            Point.mk (pytrunc ((p.x : ℚ) / scaleRatio s))
              (pytrunc ((p.y : ℚ) / scaleRatio s)))) ∧
    Scaler.type s text = .ok (.typeText text) ∧
    Scaler.wait s ms = .ok (.wait ms) ∧
    Scaler.keypress s keys = .ok (.keypress keys) := by
  have hp := pointToScreen_eq s x y hsw hsh hr
  refine ⟨?_, ?_, ?_, ?_, ?_, rfl, rfl, rfl⟩
  · rw [Scaler.click, hp]
    simp [Bind.bind, Except.bind]
  · rw [Scaler.double_click, hp]
    simp [Bind.bind, Except.bind]
  · rw [Scaler.scroll, hp]
    simp [Bind.bind, Except.bind]
  · rw [Scaler.move, hp]
    simp [Bind.bind, Except.bind]
  · rw [Scaler.drag, translatePath_eq s hsw hsh hr path]
    simp [Bind.bind, Except.bind]

/-- Witness for C4: instantiated at real screen (3840, 2160), canvas
(2048, 1152), and concrete arguments for every method. -/
theorem c4_method_translation_witness :
    Scaler.click
        { dimensions := (2048, 1152), screen_width := 3840,
          screen_height := 2160 } 10 20 "left" =
      .ok (.click
        (pytrunc ((10 : ℚ) / scaleRatio
          { dimensions := (2048, 1152), screen_width := 3840,
            screen_height := 2160 }))
        (pytrunc ((20 : ℚ) / scaleRatio
          { dimensions := (2048, 1152), screen_width := 3840,
            screen_height := 2160 })) "left") ∧
    Scaler.drag
        { dimensions := (2048, 1152), screen_width := 3840,
          screen_height := 2160 } [Point.mk 10 20, Point.mk 30 40] =
      .ok (.drag ([Point.mk 10 20, Point.mk 30 40].map fun p =>
        Point.mk
          (pytrunc ((p.x : ℚ) / scaleRatio
            { dimensions := (2048, 1152), screen_width := 3840,
              screen_height := 2160 }))
          (pytrunc ((p.y : ℚ) / scaleRatio
            { dimensions := (2048, 1152), screen_width := 3840,
              screen_height := 2160 })))) ∧
    Scaler.type
        { dimensions := (2048, 1152), screen_width := 3840,
          screen_height := 2160 } "hi" = .ok (.typeText "hi") ∧
    Scaler.keypress
        { dimensions := (2048, 1152), screen_width := 3840,
          screen_height := 2160 } ["ctrl", "c"] =
      .ok (.keypress ["ctrl", "c"]) := by
  have h := c4_method_translation
    { dimensions := (2048, 1152), screen_width := 3840, screen_height := 2160 }
    10 20 3 4 500 "left" "hi" ["ctrl", "c"] [Point.mk 10 20, Point.mk 30 40]
    (by norm_num) (by norm_num) (by norm_num [scaleRatio, min_def])
  have hx : ((10 : ℤ) : ℚ) = (10 : ℚ) := by norm_num
  have hy : ((20 : ℤ) : ℚ) = (20 : ℚ) := by norm_num
  exact ⟨by simpa using h.1, h.2.2.2.2.1, h.2.2.2.2.2.1, h.2.2.2.2.2.2.2⟩

end CUA

namespace CUA

theorem stringFoldAppend (g : OutputItem → String) :
    ∀ (l : List OutputItem) (a : String),
      l.foldl (fun acc it => acc ++ g it) a =
        a ++ l.foldl (fun acc it => acc ++ g it) ""
  | [], a => by simp [String.append_empty]
  | it :: rest, a => by
    rw [List.foldl_cons, List.foldl_cons,
      stringFoldAppend g rest (a ++ g it), stringFoldAppend g rest ("" ++ g it),
      String.empty_append, String.append_assoc]

theorem messagesConcat_cons (it : OutputItem) (rest : List OutputItem) :
    messagesConcat (it :: rest) = lastFragment it ++ messagesConcat rest := by
  rw [messagesConcat, List.foldl_cons, stringFoldAppend lastFragment rest,
    String.empty_append]
  rfl

theorem getLast?_of_ne_nil (l : List String) (h : l ≠ []) :
    l.getLast? = some (l.getLastD "") := by
  cases l with
  | nil => simp at h
  | cons a t => simp [List.getLastD_eq_getLast?, List.getLast?_cons]

theorem textFoldAux :
    ∀ (items : List OutputItem) (st : St),
      (∀ it ∈ items, isTextItem it = true) →
      List.foldlM stepItem st items = .ok
        { st with
          next_action :=
            if items.any isMessageItem then "user_interaction"
            else st.next_action,
          reasoning_summary := items.foldl
            (fun acc it =>
              match it with
              | .reasoning summary => String.join summary
              | _ => acc) st.reasoning_summary,
          message := st.message ++ messagesConcat items }
  | [], st, _ => by
    simp [messagesConcat, String.append_empty]
    rfl
  | it :: rest, st, h => by
    have hit : isTextItem it = true := h it (List.mem_cons_self it rest)
    have hrest : ∀ x ∈ rest, isTextItem x = true :=
      fun x hx => h x (List.mem_cons_of_mem it hx)
    match it with
    | .computerCall c => simp [isTextItem] at hit
    | .functionCall cid name args => simp [isTextItem] at hit
    | .unknown kind => simp [isTextItem] at hit
    | .reasoning summary =>
      rw [List.foldlM_cons]
      have hstep : stepItem st (.reasoning summary) =
          .ok { st with reasoning_summary := String.join summary } := rfl
      rw [hstep]
      show List.foldlM stepItem
        { st with reasoning_summary := String.join summary } rest = _
      rw [textFoldAux rest { st with reasoning_summary := String.join summary }
        hrest]
      simp [isMessageItem, messagesConcat_cons, lastFragment,
        String.empty_append]
    | .message content =>
      have hne : content ≠ [] := by
        simpa [isTextItem, List.isEmpty_iff] using hit
      rw [List.foldlM_cons]
      have hstep : stepItem st (.message content) =
          .ok { st with
                next_action := "user_interaction",
                message := st.message ++ content.getLastD "" } := by
        rw [stepItem]
        rw [getLast?_of_ne_nil content hne]
      rw [hstep]
      show List.foldlM stepItem
        { st with
          next_action := "user_interaction",
          message := st.message ++ content.getLastD "" } rest = _
      rw [textFoldAux rest
        { st with
          next_action := "user_interaction",
          message := st.message ++ content.getLastD "" } hrest]
      simp only [List.any_cons, isMessageItem, Bool.true_or,
        if_pos rfl, messagesConcat_cons, lastFragment, List.foldl_cons,
        String.append_assoc]
      simp [ite_self]

/-- C5: interpretation treats the two text-bearing kinds asymmetrically:
each reasoning item overwrites reasoning_text with the concatenation of
its own summary fragments (the last reasoning item wins), while each
message item appends its last content fragment to assistant_message,
accumulating across message items in order. -/
theorem c5_text_accumulation (rid : String) (items : List OutputItem)
    (h : ∀ it ∈ items, isTextItem it = true) :
    interpResponse { status := "completed", id := rid, output := items } =
      .ok { previous_response_id := rid,
            next_action :=
              if items.any isMessageItem then "user_interaction" else "",
            reasoning_summary := lastReasoningJoin items,
            message := messagesConcat items } := by
  rw [interpResponse]
  simp only [if_pos rfl]
  rw [textFoldAux items (initSt rid) h]
  simp [initSt, lastReasoningJoin, String.empty_append]

/-- Witness for C5: two reasoning items and two message items; the second
reasoning item overwrites the first, while the message fragments
accumulate in order. -/
theorem c5_text_accumulation_witness :
    interpResponse
        { status := "completed", id := "r1",
          output := [.reasoning ["A", "B"], .message ["x", "m1"],
                     .reasoning ["C"], .message ["m2"]] } =
      .ok { previous_response_id := "r1"
            next_action := "user_interaction"
            reasoning_summary := "C"
            message := "m1m2" } := by
  rw [c5_text_accumulation "r1"
    [.reasoning ["A", "B"], .message ["x", "m1"],
     .reasoning ["C"], .message ["m2"]] (by decide)]
  decide

end CUA

namespace CUA

theorem foldlM_stepItem_no_status :
    ∀ (items : List OutputItem) (st : St),
      List.foldlM stepItem st items ≠ .error .statusNotCompleted
  | [], st => by
    simp [List.foldlM_nil, pure, Except.pure]
  | it :: rest, st => by
    rw [List.foldlM_cons]
    match it with
    | .computerCall c => exact foldlM_stepItem_no_status rest _
    | .reasoning summary => exact foldlM_stepItem_no_status rest _
    | .functionCall cid name args => exact foldlM_stepItem_no_status rest _
    | .unknown kind => simp [stepItem, Bind.bind, Except.bind]
    | .message content =>
      cases hgl : content.getLast? with
      | none => simp [stepItem, hgl, Bind.bind, Except.bind]
      | some t =>
        have hstep : stepItem st (.message content) =
            .ok { st with
                  next_action := "user_interaction"
                  message := st.message ++ t } := by
          simp [stepItem, hgl]
        rw [hstep]
        exact foldlM_stepItem_no_status rest _

/-- C6: constructing a session state from a response whose status is not
"completed" fails with the status-assertion error and never yields a
state, while a response with status "completed" never fails on the status
check. -/
theorem c6_status_gate (r : Response) :
    (r.status ≠ "completed" →
      interpResponse r = .error .statusNotCompleted) ∧
    (r.status = "completed" →
      interpResponse r ≠ .error .statusNotCompleted) := by
  constructor
  · intro h
    rw [interpResponse, if_neg h]
  · intro h
    rw [interpResponse, if_pos h]
    exact foldlM_stepItem_no_status r.output (initSt r.id)

/-- Witness for C6: an in-progress response fails the status assertion; a
completed response does not fail it. -/
theorem c6_status_gate_witness :
    interpResponse { status := "in_progress", id := "r1", output := [] } =
      .error .statusNotCompleted ∧
    interpResponse
        { status := "completed", id := "r2",
          output := [.reasoning ["t"]] } ≠
      .error .statusNotCompleted :=
  ⟨(c6_status_gate { status := "in_progress", id := "r1", output := [] }).1
      (by decide),
   (c6_status_gate
      { status := "completed", id := "r2", output := [.reasoning ["t"]] }).2
      rfl⟩

/-- C7: a completed response containing an output item of an unsupported
kind makes interpretation fail with the unsupported-output error carrying
the offending kind string (provided the items before it are interpreted
without error), and such a failure raised from inside the retry loop is a
hard stop: the loop re-raises it after the single request that produced
it, leaving no state and making no further attempt. -/
theorem c7_unsupported_kind (rid k : String) (pre post : List OutputItem)
    (stp : St)
    (hpre : List.foldlM stepItem (initSt rid) pre = .ok stp)
    (remote : ℕ → AttemptOutcome) (r : Response)
    (h0 : remote 0 = .response r)
    (hr : interpResponse r = .error (.unsupportedOutput k)) :
    interpResponse
        { status := "completed", id := rid,
          output := pre ++ .unknown k :: post } =
      .error (.unsupportedOutput k) ∧
    retryLoop remote =
      { state := none, raised := some (.unsupportedOutput k),
        sleeps := [0], requests := 1,
        events := [.sleep 0, .request 0] } := by
  constructor
  · rw [interpResponse]
    simp only [if_pos rfl]
    rw [List.foldlM_append, hpre]
    simp [List.foldlM_cons, stepItem, Bind.bind, Except.bind]
  · rw [retryLoop, show (10 : ℕ) = 9 + 1 from rfl]
    rw [retryAux, h0]
    simp [hr]

/-- Witness for C7: a reasoning item followed by an unknown "web_search"
item, and a remote service returning such a response on the first
attempt. -/
theorem c7_unsupported_kind_witness :
    interpResponse
        { status := "completed", id := "r1",
          output := [.reasoning ["a"], .unknown "web_search"] } =
      .error (.unsupportedOutput "web_search") ∧
    retryLoop (fun _ =>
        .response { status := "completed", id := "r2",
                    output := [.unknown "web_search"] }) =
      { state := none, raised := some (.unsupportedOutput "web_search"),
        sleeps := [0], requests := 1,
        events := [.sleep 0, .request 0] } := by
  have h := c7_unsupported_kind "r1" "web_search" [.reasoning ["a"]] []
    { previous_response_id := "r1", reasoning_summary := "a" }
    (by decide)
    (fun _ => .response { status := "completed", id := "r2",
                          output := [.unknown "web_search"] })
    { status := "completed", id := "r2", output := [.unknown "web_search"] }
    rfl (by decide)
  exact h

end CUA

namespace CUA

theorem retryAux_requests_le (remote : ℕ → AttemptOutcome) :
    ∀ (fuel i wait : ℕ) (sleeps : List ℕ) (reqs : ℕ) (evs : List Ev),
      (retryAux remote fuel i wait sleeps reqs evs).requests ≤ reqs + fuel
  | 0, i, wait, sleeps, reqs, evs => by simp [retryAux]
  | fuel + 1, i, wait, sleeps, reqs, evs => by
    rw [retryAux]
    cases h : remote i with
    | rateLimit msg =>
      have ih := retryAux_requests_le remote fuel (i + 1) (parseWait msg)
        (sleeps ++ [wait]) (reqs + 1) (evs ++ [.sleep wait, .request i])
      simpa using le_trans ih (by omega)
    | response r =>
      cases hr : interpResponse r with
      | ok st => simp [hr]
      | error e => simp [hr]

theorem retryAux_exhaust (remote : ℕ → AttemptOutcome) :
    ∀ (fuel i wait : ℕ) (sleeps : List ℕ) (reqs : ℕ) (evs : List Ev),
      (∀ j, i ≤ j → j < i + fuel → ∃ msg, remote j = .rateLimit msg) →
      (retryAux remote fuel i wait sleeps reqs evs).state = none ∧
      (retryAux remote fuel i wait sleeps reqs evs).raised = none ∧
      (retryAux remote fuel i wait sleeps reqs evs).requests = reqs + fuel
  | 0, i, wait, sleeps, reqs, evs, _ => by simp [retryAux]
  | fuel + 1, i, wait, sleeps, reqs, evs, hall => by
    obtain ⟨msg, hmsg⟩ := hall i (le_refl i) (by omega)
    rw [retryAux, hmsg]
    have ih := retryAux_exhaust remote fuel (i + 1) (parseWait msg)
      (sleeps ++ [wait]) (reqs + 1) (evs ++ [.sleep wait, .request i])
      (fun j hj1 hj2 => hall j (by omega) (by omega))
    exact ⟨ih.1, ih.2.1, by rw [ih.2.2]; omega⟩

/-- C1: the retry loop of continue_task makes at most 10 create calls;
when every attempt hits a rate limit it leaves the state unset and raises
nothing (only the critical log); rate-limit failures on attempts 1-3
followed by success on attempt 4 sleep exactly the three parsed backoff
durations (after the initial zero-length sleep) and set one state; and the
wait parser reads the seconds after the fixed phrase, defaulting to 10
when the phrase is absent. -/
theorem c1_rate_limit_retry :
    (∀ remote : ℕ → AttemptOutcome, (retryLoop remote).requests ≤ 10) ∧
    (∀ remote : ℕ → AttemptOutcome,
      (∀ j, j < 10 → ∃ msg, remote j = .rateLimit msg) →
      (retryLoop remote).state = none ∧ (retryLoop remote).raised = none ∧
      (retryLoop remote).requests = 10) ∧
    (∀ (remote : ℕ → AttemptOutcome) (m0 m1 m2 : String) (r : Response)
        (st : St),
      remote 0 = .rateLimit m0 → remote 1 = .rateLimit m1 →
      remote 2 = .rateLimit m2 → remote 3 = .response r →
      interpResponse r = .ok st →
      retryLoop remote =
        { state := some st, raised := none,
          sleeps := [0, parseWait m0, parseWait m1, parseWait m2],
          requests := 4,
          events := [.sleep 0, .request 0, .sleep (parseWait m0), .request 1,
                     .sleep (parseWait m1), .request 2,
                     .sleep (parseWait m2), .request 3] }) ∧
    parseWait "Rate limit is exceeded. Please try again in 26s." = 26 ∧
    parseWait "Rate limit is exceeded." = 10 := by
  refine ⟨?_, ?_, ?_, by decide, by decide⟩
  · intro remote
    have h := retryAux_requests_le remote 10 0 0 [] 0 []
    simpa [retryLoop] using h
  · intro remote hall
    have h := retryAux_exhaust remote 10 0 0 [] 0 []
      (fun j h1 h2 => hall j (by omega))
    simpa [retryLoop] using h
  · intro remote m0 m1 m2 r st h0 h1 h2 h3 hst
    rw [retryLoop]
    simp only [retryAux, h0, h1, h2, h3, hst, Nat.zero_add, Nat.reduceAdd,
      List.nil_append, List.cons_append, List.append_assoc]

/-- Witness for C1: three rate-limit failures carrying "Please try again
in 7s", then a successful completed response on the fourth attempt. -/
theorem c1_rate_limit_retry_witness :
    retryLoop (fun i =>
        if i < 3 then .rateLimit "Please try again in 7s"
        else .response { status := "completed", id := "w", output := [] }) =
      { state := some { previous_response_id := "w" }, raised := none,
        sleeps := [0, 7, 7, 7], requests := 4,
        events := [.sleep 0, .request 0, .sleep 7, .request 1,
                   .sleep 7, .request 2, .sleep 7, .request 3] } := by
  have h := c1_rate_limit_retry.2.2.1
    (fun i =>
      if i < 3 then .rateLimit "Please try again in 7s"
      else .response { status := "completed", id := "w", output := [] })
    "Please try again in 7s" "Please try again in 7s" "Please try again in 7s"
    { status := "completed", id := "w", output := [] }
    { previous_response_id := "w" }
    rfl rfl rfl rfl (by decide)
  rw [h]
  have hp : parseWait "Please try again in 7s" = 7 := by decide
  rw [hp]

end CUA

namespace CUA

/-- C8: continue_task on a state requesting an unregistered tool fails
with the unknown-tool error and produces no events at all — in particular
it issues no request to the remote completion service. -/
theorem c8_unknown_tool_no_request (env : Env) (a : AgentM) (st : St)
    (u : String)
    (hst : a.state = some st)
    (hna : st.next_action = "function_call")
    (htool : a.tools.lookup st.tool_name = none) :
    continueTask env a u =
      { agent := a, raised := some (.unknownTool st.tool_name),
        events := [] } ∧
    (continueTask env a u).events.all (fun e => !(isRequestEv e)) = true := by
  have hmain : continueTask env a u =
      { agent := a, raised := some (.unknownTool st.tool_name),
        events := [] } := by
    rw [continueTask, hst]
    simp [phase1, hna, htool]
  exact ⟨hmain, by rw [hmain]; rfl⟩

/-- Witness for C8: an agent holding a function_call state for the
unregistered tool "mytool", with an empty registry. -/
theorem c8_unknown_tool_no_request_witness :
    continueTask
        { remote := fun _ _ => .rateLimit "x",
          execTool := fun _ _ => "",
          screenshotData := "img" }
        { state := some { previous_response_id := "p"
                          next_action := "function_call"
                          call_id := "c1"
                          tool_name := "mytool" },
          tools := [] } "u" =
      { agent := { state := some { previous_response_id := "p"
                                   next_action := "function_call"
                                   call_id := "c1"
                                   tool_name := "mytool" },
                   tools := [] },
        raised := some (.unknownTool "mytool"), events := [] } :=
  (c8_unknown_tool_no_request
    { remote := fun _ _ => .rateLimit "x",
      execTool := fun _ _ => "",
      screenshotData := "img" }
    { state := some { previous_response_id := "p"
                      next_action := "function_call"
                      call_id := "c1"
                      tool_name := "mytool" },
      tools := [] }
    { previous_response_id := "p", next_action := "function_call",
      call_id := "c1", tool_name := "mytool" } "u" rfl rfl rfl).1

theorem noRequestBeforeClear_append :
    ∀ evs : List Ev,
      (∀ e ∈ evs, isRequestEv e = false ∧ e ≠ Ev.clearState) →
      ∀ rest : List Ev,
        noRequestBeforeClear (evs ++ Ev.clearState :: rest) = true
  | [], _, rest => by
    simp [noRequestBeforeClear, List.takeWhile_cons]
  | e :: t, h, rest => by
    have he := h e (List.mem_cons_self e t)
    have hbeq : (e == Ev.clearState) = false := beq_eq_false_iff_ne.mpr he.2
    have ih := noRequestBeforeClear_append t
      (fun x hx => h x (List.mem_cons_of_mem e hx)) rest
    simp only [noRequestBeforeClear, List.cons_append, List.takeWhile_cons,
      hbeq] at ih ⊢
    simp only [Bool.not_false, if_pos rfl, List.all_cons, he.1] at ih ⊢
    simpa [he.1] using ih

/-- C10: the unknown-tool failure of continue_task is atomic with respect
to the agent's state: after the failure the agent still holds the very
same session state (so every field and derived predicate is unchanged),
whereas on every path whose dispatch phase succeeds the state is cleared
before any request event occurs. -/
theorem c10_unknown_tool_atomic (env : Env) (a : AgentM) (st : St)
    (u : String) (hst : a.state = some st) :
    (st.next_action = "function_call" →
      a.tools.lookup st.tool_name = none →
      (continueTask env a u).agent = a ∧
      (continueTask env a u).agent.state = some st) ∧
    (∀ (input : NextInput) (evs : List Ev),
      phase1 env a st u = .ok (input, evs) →
      noRequestBeforeClear (continueTask env a u).events = true) := by
  constructor
  · intro hna htool
    have hmain : continueTask env a u =
        { agent := a, raised := some (.unknownTool st.tool_name),
          events := [] } := by
      rw [continueTask, hst]
      simp [phase1, hna, htool]
    rw [hmain]
    exact ⟨rfl, hst⟩
  · intro input evs hp
    have hform : ∀ e ∈ evs, isRequestEv e = false ∧ e ≠ Ev.clearState := by
      rw [phase1] at hp
      by_cases h1 : st.next_action = "computer_call_output"
      · rw [if_pos h1] at hp
        simp only [Except.ok.injEq, Prod.mk.injEq] at hp
        rw [← hp.2]
        intro e he
        rcases List.mem_cons.mp he with h | h
        · subst h
          exact ⟨rfl, by simp⟩
        · rcases List.mem_singleton.mp h with rfl
          exact ⟨rfl, by simp⟩
      · rw [if_neg h1] at hp
        by_cases h2 : st.next_action = "function_call"
        · rw [if_pos h2] at hp
          cases htool : a.tools.lookup st.tool_name with
          | none => rw [htool] at hp; cases hp
          | some tool =>
            rw [htool] at hp
            simp only [Except.ok.injEq, Prod.mk.injEq] at hp
            rw [← hp.2]
            intro e he
            rcases List.mem_singleton.mp he with rfl
            exact ⟨rfl, by simp⟩
        · rw [if_neg h2] at hp
          simp only [Except.ok.injEq, Prod.mk.injEq] at hp
          rw [← hp.2]
          intro e he
          simp at he
    have hred : continueTask env a u =
        { agent := { a with state := (retryLoop (env.remote input)).state },
          raised :=
            ((retryLoop (env.remote input)).raised).map AgentErr.interpFailure,
          events :=
            evs ++ [Ev.clearState] ++ (retryLoop (env.remote input)).events } := by
      rw [continueTask, hst]
      simp only [hp]
    rw [hred]
    show noRequestBeforeClear (evs ++ [Ev.clearState] ++
      (retryLoop (env.remote input)).events) = true
    rw [List.append_assoc, List.singleton_append]
    exact noRequestBeforeClear_append evs hform _

/-- Witness for C10: the unknown-tool case preserves the agent and its
state; an idle-state call (user-message path) clears the state before any
request event. -/
theorem c10_unknown_tool_atomic_witness :
    ((continueTask
        { remote := fun _ _ => .rateLimit "x",
          execTool := fun _ _ => "",
          screenshotData := "img" }
        { state := some { previous_response_id := "p"
                          next_action := "function_call"
                          tool_name := "mytool" },
          tools := [] } "u").agent =
      { state := some { previous_response_id := "p"
                        next_action := "function_call"
                        tool_name := "mytool" },
        tools := [] } ∧
     (continueTask
        { remote := fun _ _ => .rateLimit "x",
          execTool := fun _ _ => "",
          screenshotData := "img" }
        { state := some { previous_response_id := "p"
                          next_action := "function_call"
                          tool_name := "mytool" },
          tools := [] } "u").agent.state =
      some { previous_response_id := "p"
             next_action := "function_call"
             tool_name := "mytool" }) ∧
    noRequestBeforeClear (continueTask
        { remote := fun _ _ => .rateLimit "x",
          execTool := fun _ _ => "",
          screenshotData := "img" }
        { state := some { previous_response_id := "q" },
          tools := [] } "hi").events = true :=
  ⟨(c10_unknown_tool_atomic _ _
      { previous_response_id := "p", next_action := "function_call",
        tool_name := "mytool" } "u" rfl).1 rfl rfl,
   (c10_unknown_tool_atomic _ _
      { previous_response_id := "q" } "hi" rfl).2
      (.userMessage "hi") [] rfl⟩

end CUA
